import Mathlib

/-!
Shallow embedding of the `connpool` Go package (pool.go, conn.go, stat.go,
connpool.go) as a sequential state machine, together with theorems checking
the natural-language specification against it.

Modelling conventions:
* `int`/`int64` counters become `Int` (overflow is out of scope per the spec).
* Time is an `Int` nanosecond clock passed explicitly (`now`); one `Get`
  call uses a single instant, abstracting the repeated `time.Now()` reads.
* The `chan *conn` idle buffer becomes a FIFO `List Nat` of wrapper ids
  (head = receive end, append = send end) with capacity `cfg.MaxSize`;
  `p.conns == nil` after `Stop` is the `connsNil` flag.
* Wrappers are heap-allocated and aliased in Go, so the model keeps a heap
  `Nat → ConnState` indexed by creation order (`nextId` ids allocated).
* The factory is a function `Nat → Bool` giving the outcome of the k-th
  factory invocation (`factCalls` counts invocations); a successful call
  produces a fresh non-nil connection.  `physClosed` is ghost
  instrumentation recording that `c.Conn.Close()` was invoked.
* `get`'s unbounded recursion is modelled with fuel: `none` means the
  recursion exceeded the fuel, and divergence is `none` for every fuel.
* Pool naming (`WithName`, the global name counter) is not modelled: no
  claim mentions it.
-/

namespace Connpool

/-- Configuration, from connpool.go (`Config`). `idleTimeout` in nanoseconds. -/
structure Config where
  minSize : Int
  maxSize : Int
  increment : Int
  idleTimeout : Int
deriving DecidableEq, Repr

/-- `Config.validate` from pool.go; `true` means no error is returned. -/
def Config.validate (c : Config) : Bool :=
  !(c.minSize < 0 || c.maxSize ≤ 0 || c.minSize > c.maxSize) &&
    !(c.increment > c.maxSize - c.minSize)

/-- The errors the package can surface. -/
inductive Err where
  | errClosed
  | exhausted
  | factoryErr (k : Nat)
  | invalidConn
  | configErr
deriving DecidableEq, Repr

/-- State of one wrapper (`conn` in conn.go).  `hasConn` models
`c.Conn != nil`; `physClosed` is ghost state recording that the physical
connection was closed.  The default value is exactly `newConn`'s result. -/
structure ConnState where
  lastUsed : Int := 0
  unUsable : Bool := false
  hasConn : Bool := true
  physClosed : Bool := false
deriving DecidableEq, Repr

/-- The factory: outcome of the k-th invocation. -/
def Factory : Type := Nat → Bool

/-- State of one pool (`pool` in pool.go plus its `stats`). -/
structure PoolState where
  buffer : List Nat := []
  heap : Nat → ConnState := fun _ => {}
  nextId : Nat := 0
  size : Int := 0
  request : Int := 0
  success : Int := 0
  running : Bool := false
  connsNil : Bool := false
  factCalls : Nat := 0

/-- `p.available()` = `len(p.conns)`; the length of a nil channel is 0. -/
def available (s : PoolState) : Int :=
  if s.connsNil then 0 else (s.buffer.length : Int)

/-- `stats.Active()` = `size.val() - available()`. -/
def statsActive (s : PoolState) : Int := s.size - available s

/-- `updateStat`: every `Get` bumps `request`; a non-error outcome bumps
`success` as well. -/
def updateStat (s : PoolState) (isErr : Bool) : PoolState :=
  { s with request := s.request + 1,
           success := if isErr then s.success else s.success + 1 }

/-- The successful iteration of `addConnections`'s loop body: the factory
produced a connection, `p.conns <- newConn(c, p)` appends a fresh wrapper
(all fields at their `newConn` defaults) and `p.stats.size.inc()` runs. -/
def growState (s : PoolState) : PoolState :=
  { s with factCalls := s.factCalls + 1,
           buffer := s.buffer ++ [s.nextId],
           heap := Function.update s.heap s.nextId {},
           nextId := s.nextId + 1,
           size := s.size + 1 }

/-- The failing iteration: the factory call is consumed and its error
returned. -/
def factFail (s : PoolState) : PoolState × Option Err :=
  ({ s with factCalls := s.factCalls + 1 }, some (.factoryErr s.factCalls))

/-- The loop of `addConnections`: check capacity, invoke the factory,
append a fresh wrapper to the channel, bump `size`. -/
def addConnsAux (cfg : Config) (factory : Factory) :
    Nat → PoolState → PoolState × Option Err
  | 0, s => (s, none)
  | n + 1, s =>
    if cfg.maxSize ≤ s.size then (s, none)
    else if factory s.factCalls then addConnsAux cfg factory n (growState s)
    else factFail s

/-- `addConnections(size int)`: the Go loop `for i := 0; i < size; i++`
runs `size.toNat` times. -/
def addConnections (cfg : Config) (factory : Factory) (n : Int) (s : PoolState) :
    PoolState × Option Err :=
  addConnsAux cfg factory n.toNat s

/-- `pool.put` from pool.go: unusable wrappers are physically closed;
otherwise a non-blocking channel send (room and non-nil channel) stamps
`lastUsed`; otherwise the wrapper is physically closed and `size`
decremented. -/
def putOp (cfg : Config) (now : Int) (s : PoolState) (cid : Nat) :
    PoolState × Option Err :=
  let c := s.heap cid
  if c.unUsable then
    ({ s with heap := Function.update s.heap cid { c with physClosed := true } }, none)
  else if !s.connsNil && s.buffer.length < cfg.maxSize.toNat then
    ({ s with buffer := s.buffer ++ [cid],
              heap := Function.update s.heap cid { c with lastUsed := now } }, none)
  else
    ({ s with size := s.size - 1,
              heap := Function.update s.heap cid { c with physClosed := true } }, none)

/-- `conn.Close` from conn.go: a nil underlying connection is an
`InvalidConnectionError`; otherwise delegate to the owning pool's `put`. -/
def connClose (cfg : Config) (now : Int) (s : PoolState) (cid : Nat) :
    PoolState × Option Err :=
  let c := s.heap cid
  if c.hasConn = false then (s, some .invalidConn)
  else putOp cfg now s cid

/-- The dynamic type of a `net.Conn` argument handed to `MarkUnusable`:
either some foreign `net.Conn` or a `*conn` wrapper with id `cid`. -/
inductive ConnArg where
  | raw
  | wrapper (cid : Nat)
deriving DecidableEq, Repr

/-- `pool.MarkUnusable`: the type assertion `c.(*conn)` succeeds exactly on
wrappers; then `c.markUnusable()` sets the flag and `p.stats.size.dec()`
decrements `size`. -/
def markUnusableOp (s : PoolState) (a : ConnArg) : PoolState :=
  match a with
  | .raw => s
  | .wrapper cid =>
    { s with heap := Function.update s.heap cid { s.heap cid with unUsable := true },
             size := s.size - 1 }

/-- `pool.get` from pool.go, fuelled.  `none` = the recursion ran out of
fuel (the Go code would still be recursing).  A buffered wrapper whose
`lastUsed` is set and older than `now - idleTimeout` is physically closed,
`size` decremented, and retrieval retried; an empty buffer falls through
to `tryGet`, which grows by `Increment` clamped to `MaxSize` and retries,
or reports exhaustion when `size` is not below `MaxSize`. -/
def getAux (cfg : Config) (factory : Factory) (now : Int) :
    Nat → PoolState → Option (PoolState × Except Err Nat)
  | 0, _ => none
  | fuel + 1, s =>
    match s.buffer with
    | cid :: rest =>
      let c := s.heap cid
      if 0 < c.lastUsed ∧ c.lastUsed < now - cfg.idleTimeout then
        getAux cfg factory now fuel
          { s with buffer := rest, size := s.size - 1,
                   heap := Function.update s.heap cid { c with physClosed := true } }
      else some ({ s with buffer := rest }, .ok cid)
    | [] =>
      if s.size < cfg.maxSize then
        let n : Int :=
          if cfg.increment + s.size > cfg.maxSize then cfg.maxSize - s.size
          else cfg.increment
        match addConnections cfg factory n s with
        | (s', none) => getAux cfg factory now fuel s'
        | (s', some e) => some (s', .error e)
      else some (s, .error .exhausted)

/-- `pool.Get`: fail with `ErrClosed` on a nil channel or a non-running
pool, otherwise `get`; the deferred `updateStat` runs on every outcome. -/
def GetOp (cfg : Config) (factory : Factory) (now : Int) (fuel : Nat)
    (s : PoolState) : Option (PoolState × Except Err Nat) :=
  if s.connsNil || !s.running then
    some (updateStat s true, .error .errClosed)
  else
    match getAux cfg factory now fuel s with
    | none => none
    | some (s', .ok cid) => some (updateStat s' false, .ok cid)
    | some (s', .error e) => some (updateStat s' true, .error e)

/-- The drain loop of `Stop`: physically close every buffered wrapper
whose underlying connection is non-nil. -/
def drainClose (h : Nat → ConnState) (buf : List Nat) : Nat → ConnState :=
  buf.foldl
    (fun h cid =>
      let c := h cid
      if c.hasConn then Function.update h cid { c with physClosed := true } else h)
    h

/-- `pool.Stop`: only the first caller flips `running`; it resets the
stats, drains and closes the idle buffer and sets the channel to nil.
Physical closes never fail in the model, so the returned error is `none`. -/
def StopOp (s : PoolState) : PoolState × Option Err :=
  if s.running then
    ({ s with running := false, size := 0, success := 0, request := 0,
              heap := drainClose s.heap s.buffer,
              buffer := [], connsNil := true }, none)
  else (s, none)

/-- The pool state `New` builds before `start` runs. -/
def initState : PoolState := { running := true }

/-- `New` from pool.go: reject an invalid config, then `start`: flip
`running` and eagerly create `minSize` connections.  NOTE: the source
ignores the error returned by `start` (the `if err != nil` body is empty),
so `New` returns the pool even when the factory failed. -/
def NewOp (cfg : Config) (factory : Factory) : Except Err PoolState :=
  if cfg.validate = false then .error .configErr
  else
    let r := addConnections cfg factory cfg.minSize initState
    .ok r.1

/-- One public operation applied by some caller.  `close`/`mark` may target
any wrapper the pool ever produced (callers retain pointers, so aliasing
with the buffer is possible). -/
inductive Step (cfg : Config) (factory : Factory) : PoolState → PoolState → Prop
  | get (now : Int) (fuel : Nat) (s s' : PoolState) (r : Except Err Nat)
      (h : GetOp cfg factory now fuel s = some (s', r)) : Step cfg factory s s'
  | close (now : Int) (cid : Nat) (s : PoolState) (hcid : cid < s.nextId) :
      Step cfg factory s (connClose cfg now s cid).1
  | mark (cid : Nat) (s : PoolState) (hcid : cid < s.nextId) :
      Step cfg factory s (markUnusableOp s (.wrapper cid))
  | markRaw (s : PoolState) : Step cfg factory s (markUnusableOp s .raw)
  | stop (s : PoolState) : Step cfg factory s (StopOp s).1

/-- States reachable through the public operations, starting from a
successful `New`. -/
inductive Reachable (cfg : Config) (factory : Factory) : PoolState → Prop
  | init (s : PoolState) (h : NewOp cfg factory = .ok s) : Reachable cfg factory s
  | step (s s' : PoolState) (h : Reachable cfg factory s)
      (hs : Step cfg factory s s') : Reachable cfg factory s'

/-- For a world with two pools: the `net.Conn` handed to `MarkUnusable` is
a foreign connection, a wrapper of the receiver pool, or a wrapper
produced by the other pool (the type assertion `c.(*conn)` cannot tell the
last two apart). -/
inductive ConnArg2 where
  | raw
  | mine (cid : Nat)
  | theirs (cid : Nat)
deriving DecidableEq, Repr

/-- `p.MarkUnusable(c)` in a world with a second pool `q`: for any wrapper
argument the assertion succeeds, `c.markUnusable()` mutates that wrapper
(in whichever pool's heap it lives) and `p.stats.size.dec()` decrements
the receiver's counter. -/
def markUnusableTwo (p q : PoolState) : ConnArg2 → PoolState × PoolState
  | .raw => (p, q)
  | .mine cid => (markUnusableOp p (.wrapper cid), q)
  | .theirs cid =>
    ({ p with size := p.size - 1 },
     { q with heap := Function.update q.heap cid { q.heap cid with unUsable := true } })

/-- `Get` diverges from `s`: no amount of fuel makes it return. -/
def getNeverReturns (cfg : Config) (f : Factory) (now : Int)
    (s : PoolState) : Prop :=
  ∀ fuel, GetOp cfg f now fuel s = none

/-! ### Concrete fixtures used to evaluate the model -/

/-- A factory whose every call succeeds. -/
def facOk : Factory := fun _ => true

/-- A factory whose every call fails. -/
def facBad : Factory := fun _ => false

def cfg110 : Config := { minSize := 1, maxSize := 1, increment := 0, idleTimeout := 1000 }

def cfg121 : Config := { minSize := 1, maxSize := 2, increment := 1, idleTimeout := 1000 }

def cfg011 : Config := { minSize := 0, maxSize := 1, increment := 1, idleTimeout := 1000 }

def cfg010 : Config := { minSize := 0, maxSize := 1, increment := 0, idleTimeout := 1000 }

def cfg021 : Config := { minSize := 0, maxSize := 2, increment := 1, idleTimeout := 1000 }

/-- Extract the pool returned by `New` (total harness helper for concrete
runs; `New` never fails on a valid config in this model because the start
error is swallowed). -/
def newState (cfg : Config) (f : Factory) : PoolState :=
  match NewOp cfg f with
  | .ok s => s
  | .error _ => initState

/-- Extract the pool state after a `Get` (total harness helper for
concrete runs). -/
def getState (cfg : Config) (f : Factory) (now : Int) (fuel : Nat)
    (s : PoolState) : PoolState :=
  match GetOp cfg f now fuel s with
  | some (s', _) => s'
  | none => s

/-- After `New` on `cfg021` and one `Get` at time 0. -/
def c3wState : PoolState := getState cfg021 facOk 0 2 initState

/-- After `New` on `cfg011` and one `Get` at time 0: `size = maxSize`,
empty buffer. -/
def c3exState : PoolState := getState cfg011 facOk 0 2 initState

/-- `New` on `cfg121`, then `Get` (receives wrapper 0). -/
def c4s1 : PoolState := getState cfg121 facOk 0 2 (newState cfg121 facOk)

/-- ... then `Close` of wrapper 0 at time 5 (back in the buffer). -/
def c4s2 : PoolState := (connClose cfg121 5 c4s1 0).1

/-- ... then a second `Close` of the same wrapper at time 6. -/
def c4s3 : PoolState := (connClose cfg121 6 c4s2 0).1

/-- `New` on `cfg110` (one eager connection). -/
def s80 : PoolState := newState cfg110 facOk

/-- ... then `Get` (receives wrapper 0). -/
def s81 : PoolState := getState cfg110 facOk 0 2 s80

/-- ... then `Close` of wrapper 0 at time 5 (back in the buffer). -/
def s82 : PoolState := (connClose cfg110 5 s81 0).1

/-- ... then `MarkUnusable` of wrapper 0 while it sits in the buffer. -/
def s83 : PoolState := markUnusableOp s82 (.wrapper 0)

/-- A pool holding a wrapper whose underlying `net.Conn` is nil (as
produced by a factory that returns `(nil, nil)`, like the test suite's
`fakeFactory`). -/
def nilConnPool : PoolState :=
  { initState with
      heap := Function.update initState.heap 0 { hasConn := false },
      nextId := 1 }

/-! ### Basic facts about the configuration -/

theorem validate_bounds (cfg : Config) (h : cfg.validate = true) :
    0 ≤ cfg.minSize ∧ 0 < cfg.maxSize ∧ cfg.minSize ≤ cfg.maxSize ∧
      cfg.increment ≤ cfg.maxSize - cfg.minSize := by
  simp only [Config.validate, Bool.and_eq_true, Bool.not_eq_true',
    Bool.or_eq_false_iff, decide_eq_false_iff_not, not_lt, not_le] at h
  omega

/-! ### Facts about the growth loop `addConnections` -/

@[simp] theorem growState_buffer (s : PoolState) :
    (growState s).buffer = s.buffer ++ [s.nextId] := rfl

@[simp] theorem growState_nextId (s : PoolState) :
    (growState s).nextId = s.nextId + 1 := rfl

@[simp] theorem growState_size (s : PoolState) : (growState s).size = s.size + 1 := rfl

@[simp] theorem growState_request (s : PoolState) :
    (growState s).request = s.request := rfl

@[simp] theorem growState_success (s : PoolState) :
    (growState s).success = s.success := rfl

@[simp] theorem growState_running (s : PoolState) :
    (growState s).running = s.running := rfl

@[simp] theorem growState_connsNil (s : PoolState) :
    (growState s).connsNil = s.connsNil := rfl

@[simp] theorem growState_heap (s : PoolState) :
    (growState s).heap = Function.update s.heap s.nextId {} := rfl

theorem addConnsAux_size_le (cfg : Config) (f : Factory) :
    ∀ (n : Nat) (s : PoolState), s.size ≤ cfg.maxSize →
      ((addConnsAux cfg f n s).1).size ≤ cfg.maxSize := by
  intro n
  induction n with
  | zero => intro s h; exact h
  | succ k ih =>
    intro s h
    by_cases h1 : cfg.maxSize ≤ s.size
    · simp only [addConnsAux, if_pos h1]; exact h
    · by_cases h2 : f s.factCalls
      · simp only [addConnsAux, if_neg h1, if_pos h2]
        exact ih _ (by simp; omega)
      · simp only [addConnsAux, if_neg h1, if_neg h2, factFail]; exact h

theorem addConnsAux_nextId_ge (cfg : Config) (f : Factory) :
    ∀ (n : Nat) (s : PoolState), s.nextId ≤ ((addConnsAux cfg f n s).1).nextId := by
  intro n
  induction n with
  | zero => intro s; exact Nat.le_refl _
  | succ k ih =>
    intro s
    by_cases h1 : cfg.maxSize ≤ s.size
    · simp [addConnsAux, h1]
    · by_cases h2 : f s.factCalls
      · simp only [addConnsAux, if_neg h1, if_pos h2]
        have h3 := ih (growState s)
        simp only [growState_nextId] at h3
        omega
      · simp [addConnsAux, h1, h2, factFail]

theorem addConnsAux_nextId_le (cfg : Config) (f : Factory) :
    ∀ (n : Nat) (s : PoolState),
      ((addConnsAux cfg f n s).1).nextId ≤ s.nextId + n := by
  intro n
  induction n with
  | zero => intro s; exact Nat.le_refl _
  | succ k ih =>
    intro s
    by_cases h1 : cfg.maxSize ≤ s.size
    · simp [addConnsAux, h1]
    · by_cases h2 : f s.factCalls
      · simp only [addConnsAux, if_neg h1, if_pos h2]
        have h3 := ih (growState s)
        simp only [growState_nextId] at h3
        omega
      · simp [addConnsAux, h1, h2, factFail]

theorem addConnsAux_request (cfg : Config) (f : Factory) :
    ∀ (n : Nat) (s : PoolState),
      ((addConnsAux cfg f n s).1).request = s.request := by
  intro n
  induction n with
  | zero => intro s; rfl
  | succ k ih =>
    intro s
    by_cases h1 : cfg.maxSize ≤ s.size
    · simp [addConnsAux, h1]
    · by_cases h2 : f s.factCalls
      · simp only [addConnsAux, if_neg h1, if_pos h2]
        rw [ih (growState s), growState_request]
      · simp [addConnsAux, h1, h2, factFail]

theorem addConnsAux_success (cfg : Config) (f : Factory) :
    ∀ (n : Nat) (s : PoolState),
      ((addConnsAux cfg f n s).1).success = s.success := by
  intro n
  induction n with
  | zero => intro s; rfl
  | succ k ih =>
    intro s
    by_cases h1 : cfg.maxSize ≤ s.size
    · simp [addConnsAux, h1]
    · by_cases h2 : f s.factCalls
      · simp only [addConnsAux, if_neg h1, if_pos h2]
        rw [ih (growState s), growState_success]
      · simp [addConnsAux, h1, h2, factFail]

theorem addConnsAux_running (cfg : Config) (f : Factory) :
    ∀ (n : Nat) (s : PoolState),
      ((addConnsAux cfg f n s).1).running = s.running := by
  intro n
  induction n with
  | zero => intro s; rfl
  | succ k ih =>
    intro s
    by_cases h1 : cfg.maxSize ≤ s.size
    · simp [addConnsAux, h1]
    · by_cases h2 : f s.factCalls
      · simp only [addConnsAux, if_neg h1, if_pos h2]
        rw [ih (growState s), growState_running]
      · simp [addConnsAux, h1, h2, factFail]

theorem addConnsAux_connsNil (cfg : Config) (f : Factory) :
    ∀ (n : Nat) (s : PoolState),
      ((addConnsAux cfg f n s).1).connsNil = s.connsNil := by
  intro n
  induction n with
  | zero => intro s; rfl
  | succ k ih =>
    intro s
    by_cases h1 : cfg.maxSize ≤ s.size
    · simp [addConnsAux, h1]
    · by_cases h2 : f s.factCalls
      · simp only [addConnsAux, if_neg h1, if_pos h2]
        rw [ih (growState s), growState_connsNil]
      · simp [addConnsAux, h1, h2, factFail]

theorem addConnsAux_heap_lower (cfg : Config) (f : Factory) :
    ∀ (n : Nat) (s : PoolState) (j : Nat), j < s.nextId →
      ((addConnsAux cfg f n s).1).heap j = s.heap j := by
  intro n
  induction n with
  | zero => intro s j _; rfl
  | succ k ih =>
    intro s j hj
    by_cases h1 : cfg.maxSize ≤ s.size
    · simp [addConnsAux, h1]
    · by_cases h2 : f s.factCalls
      · simp only [addConnsAux, if_neg h1, if_pos h2]
        rw [ih (growState s) j (by simp; omega)]
        simp only [growState_heap]
        exact Function.update_noteq (by omega) _ _
      · simp [addConnsAux, h1, h2, factFail]

theorem addConnsAux_buffer_ext (cfg : Config) (f : Factory) :
    ∀ (n : Nat) (s : PoolState),
      ∃ l, ((addConnsAux cfg f n s).1).buffer = s.buffer ++ l := by
  intro n
  induction n with
  | zero => intro s; exact ⟨[], by simp [addConnsAux]⟩
  | succ k ih =>
    intro s
    by_cases h1 : cfg.maxSize ≤ s.size
    · exact ⟨[], by simp [addConnsAux, h1]⟩
    · by_cases h2 : f s.factCalls
      · simp only [addConnsAux, if_neg h1, if_pos h2]
        obtain ⟨l, hl⟩ := ih (growState s)
        refine ⟨s.nextId :: l, ?_⟩
        rw [hl, growState_buffer]
        simp
      · exact ⟨[], by simp [addConnsAux, h1, h2, factFail]⟩

/-! ### Facts about the retrieval loop `get` -/

theorem getAux_size_le (cfg : Config) (f : Factory) (now : Int) :
    ∀ (fuel : Nat) (s s' : PoolState) (r : Except Err Nat),
      s.size ≤ cfg.maxSize → getAux cfg f now fuel s = some (s', r) →
      s'.size ≤ cfg.maxSize := by
  intro fuel
  induction fuel with
  | zero => intro s s' r _ h; exact absurd h (by simp [getAux])
  | succ k ih =>
    intro s s' r hsz h
    rcases hbuf : s.buffer with _ | ⟨cid, rest⟩
    · simp only [getAux, hbuf] at h
      by_cases h1 : s.size < cfg.maxSize
      · rw [if_pos h1] at h
        rcases hac : addConnections cfg f
            (if cfg.increment + s.size > cfg.maxSize then cfg.maxSize - s.size
             else cfg.increment) s with ⟨s1, e⟩
        have hs1 : s1.size ≤ cfg.maxSize := by
          have := addConnsAux_size_le cfg f
            (if cfg.increment + s.size > cfg.maxSize then cfg.maxSize - s.size
             else cfg.increment).toNat s hsz
          rw [show addConnsAux cfg f
            (if cfg.increment + s.size > cfg.maxSize then cfg.maxSize - s.size
             else cfg.increment).toNat s = (s1, e) from hac] at this
          exact this
        rw [hac] at h
        rcases e with _ | e
        · exact ih s1 s' r hs1 h
        · simp only [Option.some.injEq, Prod.mk.injEq] at h
          rw [← h.1]; exact hs1
      · rw [if_neg h1] at h
        simp only [Option.some.injEq, Prod.mk.injEq] at h
        rw [← h.1]; exact hsz
    · simp only [getAux, hbuf] at h
      by_cases h2 : 0 < (s.heap cid).lastUsed ∧
          (s.heap cid).lastUsed < now - cfg.idleTimeout
      · rw [if_pos h2] at h
        refine ih _ s' r ?_ h
        simp
        omega
      · rw [if_neg h2] at h
        simp only [Option.some.injEq, Prod.mk.injEq] at h
        rw [← h.1]; exact hsz

theorem getAux_preserves (cfg : Config) (f : Factory) (now : Int) :
    ∀ (fuel : Nat) (s s' : PoolState) (r : Except Err Nat),
      getAux cfg f now fuel s = some (s', r) →
      s'.request = s.request ∧ s'.success = s.success ∧
        s'.running = s.running ∧ s'.connsNil = s.connsNil ∧
        s.nextId ≤ s'.nextId := by
  intro fuel
  induction fuel with
  | zero => intro s s' r h; exact absurd h (by simp [getAux])
  | succ k ih =>
    intro s s' r h
    rcases hbuf : s.buffer with _ | ⟨cid, rest⟩
    · simp only [getAux, hbuf] at h
      by_cases h1 : s.size < cfg.maxSize
      · rw [if_pos h1] at h
        rcases hac : addConnections cfg f
            (if cfg.increment + s.size > cfg.maxSize then cfg.maxSize - s.size
             else cfg.increment) s with ⟨s1, e⟩
        have hpre : s1.request = s.request ∧ s1.success = s.success ∧
            s1.running = s.running ∧ s1.connsNil = s.connsNil ∧
            s.nextId ≤ s1.nextId := by
          have hq := addConnsAux_request cfg f
            (if cfg.increment + s.size > cfg.maxSize then cfg.maxSize - s.size
             else cfg.increment).toNat s
          have hs := addConnsAux_success cfg f
            (if cfg.increment + s.size > cfg.maxSize then cfg.maxSize - s.size
             else cfg.increment).toNat s
          have hr := addConnsAux_running cfg f
            (if cfg.increment + s.size > cfg.maxSize then cfg.maxSize - s.size
             else cfg.increment).toNat s
          have hc := addConnsAux_connsNil cfg f
            (if cfg.increment + s.size > cfg.maxSize then cfg.maxSize - s.size
             else cfg.increment).toNat s
          have hn := addConnsAux_nextId_ge cfg f
            (if cfg.increment + s.size > cfg.maxSize then cfg.maxSize - s.size
             else cfg.increment).toNat s
          rw [show addConnsAux cfg f
            (if cfg.increment + s.size > cfg.maxSize then cfg.maxSize - s.size
             else cfg.increment).toNat s = (s1, e) from hac] at hq hs hr hc hn
          exact ⟨hq, hs, hr, hc, hn⟩
        rw [hac] at h
        rcases e with _ | e
        · have h2 := ih s1 s' r h
          exact ⟨h2.1.trans hpre.1, h2.2.1.trans hpre.2.1,
            h2.2.2.1.trans hpre.2.2.1, h2.2.2.2.1.trans hpre.2.2.2.1,
            hpre.2.2.2.2.trans h2.2.2.2.2⟩
        · simp only [Option.some.injEq, Prod.mk.injEq] at h
          rw [← h.1]
          exact hpre
      · rw [if_neg h1] at h
        simp only [Option.some.injEq, Prod.mk.injEq] at h
        rw [← h.1]
        exact ⟨rfl, rfl, rfl, rfl, Nat.le_refl _⟩
    · simp only [getAux, hbuf] at h
      by_cases h2 : 0 < (s.heap cid).lastUsed ∧
          (s.heap cid).lastUsed < now - cfg.idleTimeout
      · rw [if_pos h2] at h
        have h3 := ih _ s' r h
        simpa using h3
      · rw [if_neg h2] at h
        simp only [Option.some.injEq, Prod.mk.injEq] at h
        rw [← h.1]
        exact ⟨rfl, rfl, rfl, rfl, Nat.le_refl _⟩

/-- One-step unfolding of `get` when the channel receive succeeds. -/
theorem getAux_succ_cons (cfg : Config) (f : Factory) (now : Int) (fuel : Nat)
    (s : PoolState) (cid : Nat) (rest : List Nat) (hbuf : s.buffer = cid :: rest) :
    getAux cfg f now (fuel + 1) s =
      if 0 < (s.heap cid).lastUsed ∧
          (s.heap cid).lastUsed < now - cfg.idleTimeout then
        getAux cfg f now fuel
          { s with buffer := rest, size := s.size - 1,
                   heap := Function.update s.heap cid
                     { s.heap cid with physClosed := true } }
      else some ({ s with buffer := rest }, .ok cid) := by
  simp only [getAux, hbuf]

/-- One-step unfolding of `get` when the channel is empty (`tryGet`). -/
theorem getAux_succ_nil (cfg : Config) (f : Factory) (now : Int) (fuel : Nat)
    (s : PoolState) (hbuf : s.buffer = []) :
    getAux cfg f now (fuel + 1) s =
      if s.size < cfg.maxSize then
        match addConnections cfg f
            (if cfg.increment + s.size > cfg.maxSize then cfg.maxSize - s.size
             else cfg.increment) s with
        | (s1, none) => getAux cfg f now fuel s1
        | (s1, some e) => some (s1, .error e)
      else some (s, .error .exhausted) := by
  simp only [getAux, hbuf]

theorem growAmount_eq_min (cfg : Config) (s : PoolState) :
    (if cfg.increment + s.size > cfg.maxSize then cfg.maxSize - s.size
     else cfg.increment) = min cfg.increment (cfg.maxSize - s.size) := by
  split <;> omega

/-- With `Increment ≤ 0` and spare capacity, `tryGet` adds nothing and
`get` recurses on an unchanged state: it never returns, whatever the fuel. -/
theorem getAux_stuck (cfg : Config) (f : Factory) (now : Int) (s : PoolState)
    (hbuf : s.buffer = []) (hsz : s.size < cfg.maxSize)
    (hinc : cfg.increment ≤ 0) :
    ∀ fuel, getAux cfg f now fuel s = none := by
  intro fuel
  induction fuel with
  | zero => rfl
  | succ k ih =>
    have hn : (if cfg.increment + s.size > cfg.maxSize then cfg.maxSize - s.size
        else cfg.increment).toNat = 0 := by
      rw [growAmount_eq_min]
      omega
    simp only [getAux, hbuf, if_pos hsz, addConnections, hn, addConnsAux]
    exact ih

theorem addConnsAux_fresh_head (cfg : Config) (f : Factory) (k : Nat)
    (s : PoolState) (h1 : ¬cfg.maxSize ≤ s.size) (h2 : f s.factCalls = true) :
    ∃ l, ((addConnsAux cfg f (k + 1) s).1).buffer = s.buffer ++ s.nextId :: l ∧
      ((addConnsAux cfg f (k + 1) s).1).heap s.nextId = {} := by
  simp only [addConnsAux, if_neg h1, if_pos h2]
  obtain ⟨l, hl⟩ := addConnsAux_buffer_ext cfg f k (growState s)
  refine ⟨l, ?_, ?_⟩
  · rw [hl, growState_buffer]
    simp
  · rw [addConnsAux_heap_lower cfg f k (growState s) s.nextId (by simp)]
    simp [growState_heap]

/-- A growth round creates at most `min increment (maxSize - size)`
connections: the number of wrapper ids allocated by a successful `get`
that found the buffer empty with spare capacity is bounded by the clamped
increment. -/
theorem getAux_grow_bound (cfg : Config) (f : Factory) (now : Int)
    (fuel : Nat) (s s' : PoolState) (r : Except Err Nat)
    (hbuf : s.buffer = []) (hsz : s.size < cfg.maxSize)
    (h : getAux cfg f now (fuel + 1) s = some (s', r)) :
    s'.nextId ≤ s.nextId + (min cfg.increment (cfg.maxSize - s.size)).toNat := by
  simp only [getAux, hbuf, if_pos hsz, addConnections] at h
  rw [← growAmount_eq_min cfg s]
  rcases hk : (if cfg.increment + s.size > cfg.maxSize then cfg.maxSize - s.size
      else cfg.increment).toNat with _ | k
  · have hinc : cfg.increment ≤ 0 := by
      rw [growAmount_eq_min] at hk
      omega
    rw [hk] at h
    simp only [addConnsAux] at h
    rw [getAux_stuck cfg f now s hbuf hsz hinc fuel] at h
    exact absurd h (by simp)
  · rw [hk] at h
    rcases hac : addConnsAux cfg f (k + 1) s with ⟨s1, e⟩
    have hle : s1.nextId ≤ s.nextId + (k + 1) := by
      have h5 := addConnsAux_nextId_le cfg f (k + 1) s
      rw [hac] at h5
      exact h5
    rw [hac] at h
    rcases e with _ | e
    · by_cases hf : f s.factCalls
      · obtain ⟨l, hl, hh⟩ := addConnsAux_fresh_head cfg f k s (by omega) hf
        rw [hac] at hl hh
        dsimp only at hl hh
        rw [hbuf, List.nil_append] at hl
        rcases fuel with _ | fl
        · exact absurd h (by simp [getAux])
        · simp only [getAux, hl, hh] at h
          rw [if_neg (by simp)] at h
          simp only [Option.some.injEq, Prod.mk.injEq] at h
          have h6 : s'.nextId = s1.nextId := by rw [← h.1]
          omega
      · have h7 : addConnsAux cfg f (k + 1) s = factFail s := by
          simp only [addConnsAux, if_neg (show ¬cfg.maxSize ≤ s.size by omega),
            if_neg hf]
        rw [h7] at hac
        simp only [factFail, Prod.mk.injEq] at hac
        exact absurd hac.2 (by simp)
    · simp only [Option.some.injEq, Prod.mk.injEq] at h
      have h6 : s'.nextId = s1.nextId := by rw [← h.1]
      omega

/-- With `Increment ≥ 1`, `get` terminates: fuel `|buffer| + 2` always
suffices to produce a result. -/
theorem getAux_total (cfg : Config) (f : Factory) (now : Int)
    (hinc : 1 ≤ cfg.increment) :
    ∀ (l : List Nat) (s : PoolState), s.buffer = l →
      getAux cfg f now (l.length + 2) s ≠ none := by
  intro l
  induction l with
  | nil =>
    intro s hbuf
    by_cases hsz : s.size < cfg.maxSize
    · simp only [List.length_nil, Nat.zero_add, getAux, hbuf, if_pos hsz,
        addConnections, growAmount_eq_min]
      have hk : ∃ k, (min cfg.increment (cfg.maxSize - s.size)).toNat = k + 1 := by
        refine ⟨(min cfg.increment (cfg.maxSize - s.size)).toNat - 1, ?_⟩
        omega
      obtain ⟨k, hk⟩ := hk
      rw [hk]
      by_cases hf : f s.factCalls
      · rcases hac : addConnsAux cfg f (k + 1) s with ⟨s1, e⟩
        rcases e with _ | e
        · obtain ⟨lf, hl, hh⟩ := addConnsAux_fresh_head cfg f k s (by omega) hf
          rw [hac] at hl hh
          dsimp only at hl hh
          rw [hbuf, List.nil_append] at hl
          simp only [getAux, hl, hh]
          rw [if_neg (by simp)]
          simp
        · simp
      · have h7 : addConnsAux cfg f (k + 1) s = factFail s := by
          simp only [addConnsAux, if_neg (show ¬cfg.maxSize ≤ s.size by omega),
            if_neg hf]
        rw [h7]
        simp [factFail]
    · simp only [List.length_nil, Nat.zero_add, getAux, hbuf, if_neg hsz]
      simp
  | cons cid rest ih =>
    intro s hbuf
    rw [show (cid :: rest).length + 2 = (rest.length + 2) + 1 from by
      simp [List.length_cons]]
    rw [getAux_succ_cons cfg f now (rest.length + 2) s cid rest hbuf]
    by_cases h2 : 0 < (s.heap cid).lastUsed ∧
        (s.heap cid).lastUsed < now - cfg.idleTimeout
    · rw [if_pos h2]
      apply ih
      rfl
    · rw [if_neg h2]
      simp

/-- Retrieval never clears a produced wrapper's unusable flag. -/
theorem getAux_unusable_mono (cfg : Config) (f : Factory) (now : Int) :
    ∀ (fuel : Nat) (s s' : PoolState) (r : Except Err Nat) (j : Nat),
      j < s.nextId → (s.heap j).unUsable = true →
      getAux cfg f now fuel s = some (s', r) → (s'.heap j).unUsable = true := by
  intro fuel
  induction fuel with
  | zero => intro s s' r j _ _ h; exact absurd h (by simp [getAux])
  | succ k ih =>
    intro s s' r j hj hu h
    rcases hbuf : s.buffer with _ | ⟨cid, rest⟩
    · simp only [getAux, hbuf] at h
      by_cases h1 : s.size < cfg.maxSize
      · rw [if_pos h1] at h
        rcases hac : addConnections cfg f
            (if cfg.increment + s.size > cfg.maxSize then cfg.maxSize - s.size
             else cfg.increment) s with ⟨s1, e⟩
        have hh := addConnsAux_heap_lower cfg f
          (if cfg.increment + s.size > cfg.maxSize then cfg.maxSize - s.size
           else cfg.increment).toNat s j hj
        have hn := addConnsAux_nextId_ge cfg f
          (if cfg.increment + s.size > cfg.maxSize then cfg.maxSize - s.size
           else cfg.increment).toNat s
        rw [show addConnsAux cfg f
          (if cfg.increment + s.size > cfg.maxSize then cfg.maxSize - s.size
           else cfg.increment).toNat s = (s1, e) from hac] at hh hn
        dsimp only at hh hn
        rw [hac] at h
        rcases e with _ | e
        · exact ih s1 s' r j (by omega) (by rw [hh]; exact hu) h
        · simp only [Option.some.injEq, Prod.mk.injEq] at h
          rw [← h.1, hh]
          exact hu
      · rw [if_neg h1] at h
        simp only [Option.some.injEq, Prod.mk.injEq] at h
        rw [← h.1]
        exact hu
    · simp only [getAux, hbuf] at h
      by_cases h2 : 0 < (s.heap cid).lastUsed ∧
          (s.heap cid).lastUsed < now - cfg.idleTimeout
      · rw [if_pos h2] at h
        refine ih _ s' r j (by simpa using hj) ?_ h
        show (Function.update s.heap cid
          { s.heap cid with physClosed := true } j).unUsable = true
        by_cases hjc : j = cid
        · subst hjc
          rw [Function.update_same]
          exact hu
        · rw [Function.update_noteq hjc]
          exact hu
      · rw [if_neg h2] at h
        simp only [Option.some.injEq, Prod.mk.injEq] at h
        rw [← h.1]
        exact hu

/-! ### Facts about `put`, `MarkUnusable`, `Stop` -/

theorem putOp_size_le (cfg : Config) (now : Int) (s : PoolState) (cid : Nat) :
    ((putOp cfg now s cid).1).size ≤ s.size := by
  simp only [putOp]
  split
  · exact le_refl _
  · split
    · exact le_refl _
    · simp

theorem putOp_counters (cfg : Config) (now : Int) (s : PoolState) (cid : Nat) :
    ((putOp cfg now s cid).1).request = s.request ∧
      ((putOp cfg now s cid).1).success = s.success ∧
      ((putOp cfg now s cid).1).nextId = s.nextId := by
  simp only [putOp]
  split
  · exact ⟨rfl, rfl, rfl⟩
  · split
    · exact ⟨rfl, rfl, rfl⟩
    · exact ⟨rfl, rfl, rfl⟩

theorem putOp_unusable (cfg : Config) (now : Int) (s : PoolState) (cid j : Nat) :
    (((putOp cfg now s cid).1).heap j).unUsable = (s.heap j).unUsable := by
  simp only [putOp]
  by_cases hjc : j = cid
  · subst hjc
    split
    · dsimp only
      rw [Function.update_same]
    · split <;> (dsimp only; rw [Function.update_same])
  · split
    · dsimp only
      rw [Function.update_noteq hjc]
    · split <;> (dsimp only; rw [Function.update_noteq hjc])

theorem connClose_size_le (cfg : Config) (now : Int) (s : PoolState) (cid : Nat) :
    ((connClose cfg now s cid).1).size ≤ s.size := by
  simp only [connClose]
  split
  · exact le_refl _
  · exact putOp_size_le cfg now s cid

theorem connClose_counters (cfg : Config) (now : Int) (s : PoolState) (cid : Nat) :
    ((connClose cfg now s cid).1).request = s.request ∧
      ((connClose cfg now s cid).1).success = s.success ∧
      ((connClose cfg now s cid).1).nextId = s.nextId := by
  simp only [connClose]
  split
  · exact ⟨rfl, rfl, rfl⟩
  · exact putOp_counters cfg now s cid

theorem connClose_unusable (cfg : Config) (now : Int) (s : PoolState) (cid j : Nat) :
    (((connClose cfg now s cid).1).heap j).unUsable = (s.heap j).unUsable := by
  simp only [connClose]
  split
  · rfl
  · exact putOp_unusable cfg now s cid j

theorem drainClose_unusable (j : Nat) :
    ∀ (buf : List Nat) (h : Nat → ConnState),
      ((drainClose h buf) j).unUsable = (h j).unUsable := by
  intro buf
  induction buf with
  | nil => intro h; rfl
  | cons b t ih =>
    intro h
    show ((drainClose _ t) j).unUsable = _
    rw [ih]
    dsimp only
    by_cases hc : (h b).hasConn
    · rw [if_pos hc]
      by_cases hjb : j = b
      · subst hjb
        simp [Function.update_same]
      · rw [Function.update_noteq hjb]
    · rw [if_neg hc]

/-! ### Reachability invariants -/

theorem reach_validate (cfg : Config) (f : Factory) (s : PoolState)
    (h : Reachable cfg f s) : cfg.validate = true := by
  induction h with
  | init s h =>
    by_cases hv : cfg.validate = false
    · simp [NewOp, hv] at h
    · simpa using hv
  | step s s' _ _ ih => exact ih

theorem reach_size_le (cfg : Config) (f : Factory) (s : PoolState)
    (h : Reachable cfg f s) : s.size ≤ cfg.maxSize := by
  induction h with
  | init s h =>
    have hv : cfg.validate = true := by
      by_cases hv : cfg.validate = false
      · rw [NewOp, if_pos hv] at h
        exact absurd h (by simp)
      · simpa using hv
    have hmax := (validate_bounds cfg hv).2.1
    rw [NewOp, if_neg (by simp [hv])] at h
    simp only [Except.ok.injEq] at h
    rw [← h]
    exact addConnsAux_size_le cfg f _ initState (by simp [initState]; omega)
  | step s s' hr hs ih =>
    rcases hs with ⟨now, fuel, _, _, r, hget⟩ | ⟨now, cid, _, hcid⟩ |
      ⟨cid, _, hcid⟩ | _ | _
    · rw [GetOp] at hget
      split at hget
      · simp only [Option.some.injEq, Prod.mk.injEq] at hget
        rw [← hget.1]
        simpa [updateStat] using ih
      · rcases hg : getAux cfg f now fuel s with _ | ⟨s1, r1⟩
        · rw [hg] at hget
          exact absurd hget (by simp)
        · rw [hg] at hget
          have h1 := getAux_size_le cfg f now fuel s s1 r1 ih hg
          rcases r1 with e | c <;>
            simp only [Option.some.injEq, Prod.mk.injEq] at hget <;>
            rw [← hget.1] <;> simpa [updateStat] using h1
    · exact le_trans (connClose_size_le cfg now s cid) ih
    · simp only [markUnusableOp]
      omega
    · simpa [markUnusableOp] using ih
    · have hmax := (validate_bounds cfg (reach_validate cfg f s hr)).2.1
      simp only [StopOp]
      split
      · dsimp only
        omega
      · dsimp only
        exact ih

theorem reach_nonneg (cfg : Config) (f : Factory) (s : PoolState)
    (h : Reachable cfg f s) : 0 ≤ s.request ∧ 0 ≤ s.success := by
  induction h with
  | init s h =>
    rw [NewOp] at h
    split at h
    · exact absurd h (by simp)
    · simp only [Except.ok.injEq] at h
      rw [← h]
      constructor
      · rw [show (addConnections cfg f cfg.minSize initState).1.request
            = initState.request from addConnsAux_request cfg f _ initState]
        simp [initState]
      · rw [show (addConnections cfg f cfg.minSize initState).1.success
            = initState.success from addConnsAux_success cfg f _ initState]
        simp [initState]
  | step s s' hr hs ih =>
    rcases hs with ⟨now, fuel, _, _, r, hget⟩ | ⟨now, cid, _, hcid⟩ |
      ⟨cid, _, hcid⟩ | _ | _
    · rw [GetOp] at hget
      split at hget
      · simp only [Option.some.injEq, Prod.mk.injEq] at hget
        rw [← hget.1]
        simp only [updateStat]
        constructor
        · omega
        · split <;> omega
      · rcases hg : getAux cfg f now fuel s with _ | ⟨s1, r1⟩
        · rw [hg] at hget
          exact absurd hget (by simp)
        · rw [hg] at hget
          have h1 := getAux_preserves cfg f now fuel s s1 r1 hg
          rcases r1 with e | c <;>
            simp only [Option.some.injEq, Prod.mk.injEq] at hget <;>
            rw [← hget.1] <;> simp only [updateStat] <;>
            constructor <;> omega
    · have h1 := connClose_counters cfg now s cid
      omega
    · simpa [markUnusableOp] using ih
    · simpa [markUnusableOp] using ih
    · simp only [StopOp]
      split
      · dsimp only
        omega
      · dsimp only
        exact ih

/-- No public operation ever clears the unusable flag of a wrapper the
pool has produced. -/
theorem step_unusable_mono (cfg : Config) (f : Factory) (s s' : PoolState)
    (hs : Step cfg f s s') (j : Nat) (hj : j < s.nextId)
    (hu : (s.heap j).unUsable = true) : (s'.heap j).unUsable = true := by
  rcases hs with ⟨now, fuel, _, _, r, hget⟩ | ⟨now, cid, _, hcid⟩ |
    ⟨cid, _, hcid⟩ | _ | _
  · rw [GetOp] at hget
    split at hget
    · simp only [Option.some.injEq, Prod.mk.injEq] at hget
      rw [← hget.1]
      exact hu
    · rcases hg : getAux cfg f now fuel s with _ | ⟨s1, r1⟩
      · rw [hg] at hget
        exact absurd hget (by simp)
      · rw [hg] at hget
        have h1 := getAux_unusable_mono cfg f now fuel s s1 r1 j hj hu hg
        rcases r1 with e | c <;>
          simp only [Option.some.injEq, Prod.mk.injEq] at hget <;>
          rw [← hget.1] <;> exact h1
  · rw [connClose_unusable cfg now s cid j]
    exact hu
  · simp only [markUnusableOp]
    by_cases hjc : j = cid
    · subst hjc
      rw [Function.update_same]
    · rw [Function.update_noteq hjc]
      exact hu
  · exact hu
  · simp only [StopOp]
    split
    · dsimp only
      rw [drainClose_unusable]
      exact hu
    · exact hu

/-- The concrete trace `New`, `Get`, `Close`, `MarkUnusable` on `cfg110`
reaches `s83` (a marked wrapper sitting in the idle buffer). -/
theorem reach_s83 : Reachable cfg110 facOk s83 := by
  refine Reachable.step s82 s83 ?_ (Step.mark 0 s82 (by decide))
  refine Reachable.step s81 s82 ?_ (Step.close 5 0 s81 (by decide))
  refine Reachable.step s80 s81 ?_ (Step.get 0 2 s80 s81 (.ok 0) rfl)
  exact Reachable.init s80 rfl

/-! ### Claims -/

/-- Claim C1 (code bug): for `cfg110` — which passes validation — and a
factory that always fails, the eager population performed by `New` fails
with the factory's error, yet `New` still returns the pool and a nil
error: the `if err := p.start(); err != nil` block in the source is empty,
so the claimed propagation of the factory error never happens. -/
theorem new_swallows_factory_error :
    cfg110.validate = true ∧
    addConnections cfg110 facBad cfg110.minSize initState
      = ({ initState with factCalls := 1 }, some (.factoryErr 0)) ∧
    NewOp cfg110 facBad = .ok { initState with factCalls := 1 } :=
  ⟨rfl, rfl, rfl⟩

/-- Claim C2 (counterexample): on the pool built from `cfg011`, after the
first `Stop` a subsequent `Get` does return `ErrClosed`, but it bumps the
`Request` counter to 1, so Stats does not report all counters equal to
zero after that `Get`. -/
theorem stop_get_bumps_request_counter :
    NewOp cfg011 facOk = .ok initState ∧
    StopOp initState = ({ initState with running := false, connsNil := true }, none) ∧
    GetOp cfg011 facOk 0 1 { initState with running := false, connsNil := true }
      = some ({ initState with running := false, connsNil := true, request := 1 },
          .error .errClosed) ∧
    ({ initState with running := false, connsNil := true, request := 1 }
      : PoolState).request ≠ 0 :=
  ⟨rfl, rfl, rfl, by decide⟩

/-- Claim C2 (amended): a second `Stop` on a stopped pool is a no-op
returning no error; immediately after the first `Stop` all four counters
(Request, Success, Available, Active) are zero; and every `Get` on a
stopped pool returns `ErrClosed` — but each such `Get` still increments
the `Request` counter (only Success, Available and Active stay zero). -/
theorem stop_idempotent_errclosed_zero_stats (cfg : Config) (f : Factory)
    (s : PoolState) :
    (s.running = false → StopOp s = (s, none)) ∧
    (s.running = true →
      (StopOp s).1.request = 0 ∧ (StopOp s).1.success = 0 ∧
        available (StopOp s).1 = 0 ∧ statsActive (StopOp s).1 = 0 ∧
        StopOp (StopOp s).1 = ((StopOp s).1, none)) ∧
    (∀ (now : Int) (fuel : Nat), s.connsNil = true ∨ s.running = false →
      GetOp cfg f now fuel s
        = some ({ s with request := s.request + 1 }, .error .errClosed)) := by
  refine ⟨?_, ?_, ?_⟩
  · intro h
    simp [StopOp, h]
  · intro h
    refine ⟨?_, ?_, ?_, ?_, ?_⟩ <;>
      simp [StopOp, h, available, statsActive]
  · intro now fuel h
    have hc : (s.connsNil || !s.running) = true := by
      rcases h with h | h <;> simp [h]
    simp only [GetOp, hc]
    rfl

/-- Witness for the amended C2 at a concrete pool built from `cfg011`. -/
theorem stop_idempotent_errclosed_zero_stats_witness :
    ((StopOp initState).1.request = 0 ∧ (StopOp initState).1.success = 0 ∧
      available (StopOp initState).1 = 0 ∧ statsActive (StopOp initState).1 = 0 ∧
      StopOp (StopOp initState).1 = ((StopOp initState).1, none)) ∧
    GetOp cfg011 facOk 7 1 (StopOp initState).1
      = some ({ (StopOp initState).1 with
                  request := (StopOp initState).1.request + 1 },
          .error .errClosed) :=
  ⟨(stop_idempotent_errclosed_zero_stats cfg011 facOk initState).2.1 rfl,
   (stop_idempotent_errclosed_zero_stats cfg011 facOk
      (StopOp initState).1).2.2 7 1 (Or.inl rfl)⟩

/-- Claim C5 (confirmed): `Close` on a wrapper with a nil underlying
connection fails with `InvalidConnectionError` and changes nothing;
otherwise it delegates to `put`: an unusable wrapper is physically closed
without touching `size`; a usable wrapper is re-inserted and stamped with
the current time when the buffer has room; and it is physically closed
with `size` decremented when the buffer is full (or the channel nil). -/
theorem wrapper_close_release_protocol (cfg : Config) (now : Int)
    (s : PoolState) (cid : Nat) :
    ((s.heap cid).hasConn = false →
      connClose cfg now s cid = (s, some .invalidConn)) ∧
    ((s.heap cid).hasConn = true → (s.heap cid).unUsable = true →
      connClose cfg now s cid
        = ({ s with heap := Function.update s.heap cid { s.heap cid with physClosed := true } }, none)) ∧
    ((s.heap cid).hasConn = true → (s.heap cid).unUsable = false →
      s.connsNil = false → s.buffer.length < cfg.maxSize.toNat →
      connClose cfg now s cid
        = ({ s with buffer := s.buffer ++ [cid], heap := Function.update s.heap cid { s.heap cid with lastUsed := now } }, none)) ∧
    ((s.heap cid).hasConn = true → (s.heap cid).unUsable = false →
      (s.connsNil = true ∨ ¬s.buffer.length < cfg.maxSize.toNat) →
      connClose cfg now s cid
        = ({ s with size := s.size - 1, heap := Function.update s.heap cid { s.heap cid with physClosed := true } }, none)) := by
  refine ⟨?_, ?_, ?_, ?_⟩
  · intro h
    simp [connClose, h]
  · intro h1 h2
    simp [connClose, putOp, h1, h2]
  · intro h1 h2 h3 h4
    simp [connClose, putOp, h1, h2, h3, h4]
  · intro h1 h2 h3
    rcases h3 with h3 | h3 <;> simp [connClose, putOp, h1, h2, h3]

/-- Witness for C5: the nil-conn case on `nilConnPool`, and the
re-insertion case on the concrete state `c4s1` of the `cfg121` run. -/
theorem wrapper_close_release_protocol_witness :
    connClose cfg110 0 nilConnPool 0 = (nilConnPool, some .invalidConn) ∧
    connClose cfg121 5 c4s1 0
      = ({ c4s1 with buffer := c4s1.buffer ++ [0], heap := Function.update c4s1.heap 0 { c4s1.heap 0 with lastUsed := 5 } }, none) :=
  ⟨(wrapper_close_release_protocol cfg110 0 nilConnPool 0).1 rfl,
   (wrapper_close_release_protocol cfg121 5 c4s1 0).2.2.1 rfl rfl rfl
     (by decide)⟩

/-- Claim C6 (confirmed): when `Get` receives a wrapper from the buffer,
it discards it (physically closing it and decrementing `size`) and
retries exactly when `lastUsedTimestamp` is set (nonzero) and older than
`now - idleTimeout`; otherwise the wrapper is returned, and a wrapper
with the 0 sentinel is never discarded by idle expiry. -/
theorem get_idle_expiry_protocol (cfg : Config) (f : Factory) (now : Int)
    (fuel : Nat) (s : PoolState) (cid : Nat) (rest : List Nat)
    (hbuf : s.buffer = cid :: rest) :
    (0 < (s.heap cid).lastUsed ∧
        (s.heap cid).lastUsed < now - cfg.idleTimeout →
      getAux cfg f now (fuel + 1) s
        = getAux cfg f now fuel
            { s with buffer := rest, size := s.size - 1, heap := Function.update s.heap cid { s.heap cid with physClosed := true } }) ∧
    (¬(0 < (s.heap cid).lastUsed ∧
        (s.heap cid).lastUsed < now - cfg.idleTimeout) →
      getAux cfg f now (fuel + 1) s = some ({ s with buffer := rest }, .ok cid)) ∧
    ((s.heap cid).lastUsed = 0 →
      getAux cfg f now (fuel + 1) s = some ({ s with buffer := rest }, .ok cid)) := by
  refine ⟨?_, ?_, ?_⟩
  · intro h
    rw [getAux_succ_cons cfg f now fuel s cid rest hbuf, if_pos h]
  · intro h
    rw [getAux_succ_cons cfg f now fuel s cid rest hbuf, if_neg h]
  · intro h
    rw [getAux_succ_cons cfg f now fuel s cid rest hbuf,
      if_neg (by rw [h]; simp)]

/-- Witness for C6 on the concrete state `s82` (wrapper 0 idle since time
5, `idleTimeout` 1000): expired at `now = 2000`, served at `now = 6`. -/
theorem get_idle_expiry_protocol_witness :
    getAux cfg110 facOk 2000 1 s82
      = getAux cfg110 facOk 2000 0
          { s82 with buffer := [], size := s82.size - 1, heap := Function.update s82.heap 0 { s82.heap 0 with physClosed := true } } ∧
    getAux cfg110 facOk 6 1 s82 = some ({ s82 with buffer := [] }, .ok 0) :=
  ⟨(get_idle_expiry_protocol cfg110 facOk 2000 0 s82 0 [] rfl).1 (by decide),
   (get_idle_expiry_protocol cfg110 facOk 6 0 s82 0 [] rfl).2.1 (by decide)⟩

/-- Claim C3 (confirmed): in every reachable state `size ≤ maxSize`; a
`Get` on a running pool whose buffer is empty and whose `size` equals
`maxSize` fails immediately with the exhaustion error — the state changes
only by the Request bump, so in particular the factory is not invoked —
and when `size` is below `maxSize` a returning `Get` allocates at most
`min(increment, maxSize - size)` new connections. -/
theorem size_bounded_and_exhaustion_immediate (cfg : Config) (f : Factory)
    (s : PoolState) (hr : Reachable cfg f s) :
    s.size ≤ cfg.maxSize ∧
    (∀ (now : Int) (fuel : Nat), s.running = true → s.connsNil = false →
      s.buffer = [] → s.size = cfg.maxSize →
      GetOp cfg f now (fuel + 1) s
        = some ({ s with request := s.request + 1 }, .error .exhausted)) ∧
    (∀ (now : Int) (fuel : Nat) (s' : PoolState) (r : Except Err Nat),
      s.buffer = [] → s.size < cfg.maxSize →
      GetOp cfg f now (fuel + 1) s = some (s', r) →
      s'.nextId ≤ s.nextId + (min cfg.increment (cfg.maxSize - s.size)).toNat) := by
  refine ⟨reach_size_le cfg f s hr, ?_, ?_⟩
  · intro now fuel hrun hnil hbuf hsz
    have hc : (s.connsNil || !s.running) = false := by simp [hrun, hnil]
    simp only [GetOp, hc]
    rw [if_neg (by simp)]
    rw [getAux_succ_nil cfg f now fuel s hbuf, if_neg (by omega)]
    rfl
  · intro now fuel s' r hbuf hsz hget
    rw [GetOp] at hget
    split at hget
    · simp only [Option.some.injEq, Prod.mk.injEq] at hget
      rw [← hget.1]
      exact Nat.le_add_right _ _
    · rcases hg : getAux cfg f now (fuel + 1) s with _ | ⟨s1, r1⟩
      · rw [hg] at hget
        exact absurd hget (by simp)
      · rw [hg] at hget
        have h1 := getAux_grow_bound cfg f now fuel s s1 r1 hbuf hsz hg
        rcases r1 with e | c <;>
          simp only [Option.some.injEq, Prod.mk.injEq] at hget <;>
          rw [← hget.1] <;> exact h1

/-- Witness for C3: exhaustion on the concrete full pool `c3exState`
(`cfg011`, `size = maxSize = 1`), and the growth bound on the run that
produced `c3wState` from the empty `cfg021` pool. -/
theorem size_bounded_and_exhaustion_immediate_witness :
    c3exState.size ≤ cfg011.maxSize ∧
    GetOp cfg011 facOk 5 1 c3exState
      = some ({ c3exState with request := c3exState.request + 1 },
          .error .exhausted) ∧
    c3wState.nextId ≤ initState.nextId
      + (min cfg021.increment (cfg021.maxSize - initState.size)).toNat := by
  have hex := size_bounded_and_exhaustion_immediate cfg011 facOk c3exState
    (Reachable.step initState c3exState (Reachable.init initState rfl)
      (Step.get 0 2 initState c3exState (.ok 0) rfl))
  have hin := size_bounded_and_exhaustion_immediate cfg021 facOk initState
    (Reachable.init initState rfl)
  exact ⟨hex.1, hex.2.1 5 0 rfl rfl rfl rfl,
    hin.2.2 0 1 c3wState (.ok 0) rfl (by decide) rfl⟩

/-- Claim C4 (counterexample): in the reachable state `c4s2` wrapper 0 is
already back in the idle buffer; a second `Close` of that same wrapper
inserts it into the buffer a second time (`[0, 0]`), so release is not
idempotent. -/
theorem double_close_double_inserts :
    Reachable cfg121 facOk c4s2 ∧
    c4s2.buffer = [0] ∧
    c4s3 = (connClose cfg121 6 c4s2 0).1 ∧
    c4s3.buffer = [0, 0] := by
  refine ⟨?_, rfl, rfl, rfl⟩
  refine Reachable.step c4s1 c4s2 ?_ (Step.close 5 0 c4s1 (by decide))
  refine Reachable.step (newState cfg121 facOk) c4s1 (Reachable.init _ rfl) ?_
  exact Step.get 0 2 _ _ (.ok 0) rfl

/-- Claim C4 (amended): releasing an already-released wrapper is
idempotent with respect to buffer and size only when the wrapper is
marked unusable; closing a usable wrapper — including one already in the
idle buffer — appends it to the buffer again whenever there is room
(leaving size unchanged), and decrements size a further time when the
buffer is full or the channel is nil. -/
theorem close_released_wrapper_behavior (cfg : Config) (now : Int)
    (s : PoolState) (cid : Nat) (h1 : (s.heap cid).hasConn = true) :
    ((s.heap cid).unUsable = true →
      (connClose cfg now s cid).1.buffer = s.buffer ∧
        (connClose cfg now s cid).1.size = s.size) ∧
    ((s.heap cid).unUsable = false → s.connsNil = false →
      s.buffer.length < cfg.maxSize.toNat →
      (connClose cfg now s cid).1.buffer = s.buffer ++ [cid] ∧
        (connClose cfg now s cid).1.size = s.size) ∧
    ((s.heap cid).unUsable = false →
      (s.connsNil = true ∨ ¬s.buffer.length < cfg.maxSize.toNat) →
      (connClose cfg now s cid).1.buffer = s.buffer ∧
        (connClose cfg now s cid).1.size = s.size - 1) := by
  refine ⟨?_, ?_, ?_⟩
  · intro h2
    constructor <;> simp [connClose, putOp, h1, h2]
  · intro h2 h3 h4
    constructor <;> simp [connClose, putOp, h1, h2, h3, h4]
  · intro h2 h3
    rcases h3 with h3 | h3 <;>
      (constructor <;> simp [connClose, putOp, h1, h2, h3])

/-- Witness for the amended C4: a second `Close` of wrapper 0 on the
concrete state `c4s2` (wrapper 0 already buffered, room available)
appends the duplicate and leaves size unchanged. -/
theorem close_released_wrapper_behavior_witness :
    (connClose cfg121 6 c4s2 0).1.buffer = c4s2.buffer ++ [0] ∧
    (connClose cfg121 6 c4s2 0).1.size = c4s2.size :=
  (close_released_wrapper_behavior cfg121 6 c4s2 0 rfl).2.1 rfl rfl (by decide)

/-- Claim C7 (counterexample): pool A (built from `cfg011`) and pool B
(built from `cfg110`, owning wrapper 0): A's `MarkUnusable` applied to
B's wrapper is not a no-op — the type assertion `c.(*conn)` succeeds, B's
wrapper gets marked and A's size counter drops from 0 to -1. -/
theorem mark_unusable_foreign_wrapper_not_noop :
    NewOp cfg011 facOk = .ok initState ∧
    NewOp cfg110 facOk = .ok s80 ∧
    initState.size = 0 ∧
    (markUnusableTwo initState s80 (.theirs 0)).1.size = -1 ∧
    ((markUnusableTwo initState s80 (.theirs 0)).2.heap 0).unUsable = true :=
  ⟨rfl, rfl, rfl, by decide, by decide⟩

/-- Claim C7 (amended): `MarkUnusable` is a no-op on an argument that is
not a `*conn` wrapper at all; on any wrapper — the code cannot tell which
pool produced it — it sets the unusable flag, which no subsequent public
operation ever clears, and immediately decrements this pool's size
counter. -/
theorem mark_unusable_semantics (cfg : Config) (f : Factory) (s : PoolState)
    (cid : Nat) :
    markUnusableOp s .raw = s ∧
    ((markUnusableOp s (.wrapper cid)).heap cid).unUsable = true ∧
    (markUnusableOp s (.wrapper cid)).size = s.size - 1 ∧
    (∀ (s' : PoolState) (j : Nat), Step cfg f s s' → j < s.nextId →
      (s.heap j).unUsable = true → (s'.heap j).unUsable = true) := by
  refine ⟨rfl, ?_, rfl, ?_⟩
  · simp [markUnusableOp, Function.update_same]
  · intro s' j hs hj hu
    exact step_unusable_mono cfg f s s' hs j hj hu

/-- Witness for the amended C7 on the concrete state `s82`, including
permanence of the flag across a subsequent `Stop`. -/
theorem mark_unusable_semantics_witness :
    markUnusableOp s82 .raw = s82 ∧
    ((markUnusableOp s82 (.wrapper 0)).heap 0).unUsable = true ∧
    (markUnusableOp s82 (.wrapper 0)).size = s82.size - 1 ∧
    (((StopOp s83).1).heap 0).unUsable = true := by
  have h := mark_unusable_semantics cfg110 facOk s82 0
  have h2 := mark_unusable_semantics cfg110 facOk s83 0
  exact ⟨h.1, h.2.1, h.2.2.1,
    h2.2.2.2 (StopOp s83).1 0 (Step.stop s83) (by decide) rfl⟩

/-- Claim C8 (counterexample): the reachable state `s83` — obtained by
`Get`, `Close`, then `MarkUnusable` on the buffered wrapper — has
`Active() = size - Available = 0 - 1 = -1`, a negative statistic. -/
theorem active_stat_negative_reachable :
    Reachable cfg110 facOk s83 ∧ statsActive s83 = -1 :=
  ⟨reach_s83, by decide⟩

/-- Claim C8 (amended): in every reachable state `Available`, `Request`
and `Success` are non-negative; `Active` can go negative (see the
counterexample), because `MarkUnusable` decrements `size` without
removing the wrapper from the buffer. -/
theorem stats_nonnegative_except_active (cfg : Config) (f : Factory)
    (s : PoolState) (hr : Reachable cfg f s) :
    0 ≤ available s ∧ 0 ≤ s.request ∧ 0 ≤ s.success := by
  refine ⟨?_, (reach_nonneg cfg f s hr).1, (reach_nonneg cfg f s hr).2⟩
  simp only [available]
  split
  · exact le_refl 0
  · exact Int.natCast_nonneg _

/-- Witness for the amended C8 at the freshly built `cfg011` pool. -/
theorem stats_nonnegative_except_active_witness :
    0 ≤ available initState ∧ 0 ≤ initState.request ∧ 0 ≤ initState.success :=
  stats_nonnegative_except_active cfg011 facOk initState
    (Reachable.init initState rfl)

/-- Claim C9 (counterexample): `cfg010` (`Increment = 0`) passes
validation, yet on its freshly built pool `Get` recurses forever
(`get` → `tryGet` → `get` with an unchanged state): no fuel makes it
return, contradicting guaranteed termination. -/
theorem get_diverges_on_zero_increment :
    cfg010.validate = true ∧
    NewOp cfg010 facOk = .ok initState ∧
    getNeverReturns cfg010 facOk 0 initState := by
  refine ⟨rfl, rfl, ?_⟩
  intro fuel
  have h := getAux_stuck cfg010 facOk 0 initState rfl (by decide) (by decide) fuel
  simp only [GetOp]
  rw [if_neg (by decide), h]

/-- Claim C9 (amended): with `Increment ≥ 1` (which every configuration
used by the tests satisfies, but validation does not require), `Get`
terminates from every state: fuel `|buffer| + 2` — one growth round plus
one retrieval pass — always yields a result (a connection or an
immediate error), with no blocking or waiting. -/
theorem get_terminates_with_positive_increment (cfg : Config) (f : Factory)
    (now : Int) (s : PoolState) (hinc : 1 ≤ cfg.increment) :
    GetOp cfg f now (s.buffer.length + 2) s ≠ none := by
  rw [GetOp]
  split
  · simp
  · rcases hg : getAux cfg f now (s.buffer.length + 2) s with _ | ⟨s1, r1⟩
    · exact absurd hg (getAux_total cfg f now hinc s.buffer s rfl)
    · rcases r1 with e | c <;> simp

/-- Witness for the amended C9 on the freshly built `cfg011` pool. -/
theorem get_terminates_with_positive_increment_witness :
    GetOp cfg011 facOk 0 (initState.buffer.length + 2) initState ≠ none :=
  get_terminates_with_positive_increment cfg011 facOk 0 initState (by decide)

/-- Claim C10 (counterexample): in the reachable state `s83` the wrapper
in the idle buffer has its unusable flag set (`MarkUnusable` was called
after `Close`), and the next `Get` hands that marked wrapper out. -/
theorem unusable_wrapper_served_from_buffer :
    Reachable cfg110 facOk s83 ∧
    s83.buffer = [0] ∧
    (s83.heap 0).unUsable = true ∧
    Option.map Prod.snd (GetOp cfg110 facOk 6 2 s83) = some (.ok 0) :=
  ⟨reach_s83, rfl, rfl, rfl⟩

/-- Claim C10 (amended): `put` never inserts a wrapper that is unusable
at release time (it closes it physically instead), so a wrapper can only
end up unusable-in-buffer by being marked after it was released — and
then `Get` will serve it (see the counterexample). -/
theorem put_never_inserts_unusable (cfg : Config) (now : Int)
    (s : PoolState) (cid : Nat) (hu : (s.heap cid).unUsable = true) :
    (putOp cfg now s cid).1.buffer = s.buffer ∧
    (putOp cfg now s cid).1.size = s.size := by
  constructor <;> simp [putOp, hu]

/-- Witness for the amended C10 on the concrete marked wrapper of `s83`. -/
theorem put_never_inserts_unusable_witness :
    (putOp cfg110 7 s83 0).1.buffer = s83.buffer ∧
    (putOp cfg110 7 s83 0).1.size = s83.size :=
  put_never_inserts_unusable cfg110 7 s83 0 rfl

end Connpool
